import Mathlib

/-!
Shallow embedding of the streaming compression/decompression adapter layer
(`compression_writer.rs` and `decompressor.rs`).

The external zstd codec engine and the Python sink/source collaborators are
external to this code base; they are modelled as response scripts (lists of
responses consumed one per call), so that the loops of the source become
structurally recursive functions.  A result of `none` means the modelled
scripts were exhausted before the operation finished (the real code would
keep invoking the collaborator); all theorems about completed runs are
conditioned on a `some` result.  Engine progress reports are clamped with
`min` exactly where the C API guarantees `pos <= size`.
-/

set_option autoImplicit false

namespace PyZstd

/-! ## Compression writer (`compression_writer.rs`)

`ZResp` is one response of `ZSTD_compressStream2`: either an error
(`ZSTD_isError` nonzero) or a report of bytes consumed from the input
cursor, bytes produced into the output cursor, and the returned `zresult`
(0 = no internal work remaining).  `WResp` is one response of a sink
method call (`write`/`flush`/`close` on the wrapped Python object). -/

inductive ZResp where
  | zerr (msg : String)
  | zok (consumed produced zresult : Nat)
deriving DecidableEq, Repr

inductive WResp where
  | wok
  | werr (msg : String)
deriving DecidableEq, Repr

/-- Python-level errors raised by the writer, mirroring the exception class
and message built at each `return Err(...)` site of the source. -/
inductive PyErr where
  | valueError (msg : String)
  | zstdError (msg : String)
  | unsupportedOperation
  | notImplemented
  | sinkError (msg : String)
deriving DecidableEq, Repr

/-- Observable calls an operation makes: engine invocations (with the
`ZSTD_EndDirective` value: 0 = continue, 1 = flush, 2 = end) and sink I/O. -/
inductive Event where
  | engineCall (directive : Nat)
  | sinkWrite (size : Nat)
  | sinkFlushCall
  | sinkCloseCall
deriving DecidableEq, Repr

/-- The external world of a compression writer: the engine response script
and the sink's response scripts plus its capability flags (`getattr`
succeeding on `flush` / `close`). -/
structure World where
  engine : List ZResp
  sinkW : List WResp
  sinkHasFlush : Bool
  sinkF : List WResp
  sinkHasClose : Bool
  sinkC : List WResp
deriving DecidableEq, Repr

/-- The fields of `ZstdCompressionWriter` (the transient `dest_buffer` has
logical length 0 at every operation boundary, so only its capacity
`write_size` is kept). -/
structure CWriter where
  write_size : Nat
  write_return_read : Bool
  closefd : Bool
  entered : Bool
  closing : Bool
  closed : Bool
  bytes_compressed : Nat
deriving DecidableEq, Repr

/-- The `while in_buffer.pos < in_buffer.size` loop of
`ZstdCompressionWriter::write`.  The engine response script doubles as
fuel: an exhausted script before the loop condition fails is `none`.  On
success returns the final input position and the accumulated
`total_write`. -/
def writeLoop (cap size : Nat) :
    List ZResp → List WResp → CWriter → Nat → Nat →
    Option (Except PyErr (Nat × Nat) × List Event × CWriter × List ZResp × List WResp)
  | engine, sinkW, w, pos, total =>
    if pos < size then
      match engine with
      | [] => none
      | ZResp.zerr msg :: engine' =>
        some (Except.error (PyErr.zstdError ("zstd compress error: " ++ msg)),
          [Event.engineCall 0], w, engine', sinkW)
      | ZResp.zok c p _ :: engine' =>
        let pos' := min (pos + c) size
        let p' := min p cap
        if 0 < p' then
          match sinkW with
          | [] => none
          | WResp.werr m :: sinkW' =>
            some (Except.error (PyErr.sinkError m),
              [Event.engineCall 0, Event.sinkWrite p'], w, engine', sinkW')
          | WResp.wok :: sinkW' =>
            (writeLoop cap size engine' sinkW'
                { w with bytes_compressed := w.bytes_compressed + p' }
                pos' (total + p')).map
              (fun x => (x.1, Event.engineCall 0 :: Event.sinkWrite p' :: x.2.1,
                x.2.2.1, x.2.2.2.1, x.2.2.2.2))
        else
          (writeLoop cap size engine' sinkW w pos' total).map
            (fun x => (x.1, Event.engineCall 0 :: x.2.1, x.2.2.1, x.2.2.2.1, x.2.2.2.2))
    else
      some (Except.ok (pos, total), [], w, engine, sinkW)

/-- `ZstdCompressionWriter::write`. -/
def ZstdCompressionWriter.write (w : CWriter) (world : World) (dataLen : Nat) :
    Option (Except PyErr Nat × List Event × CWriter × World) :=
  if w.closed then
    some (Except.error (PyErr.valueError "stream is closed"), [], w, world)
  else
    (writeLoop w.write_size dataLen world.engine world.sinkW w 0 0).map
      (fun x =>
        match x.1 with
        | Except.error e =>
          (Except.error e, x.2.1, x.2.2.1,
            { world with engine := x.2.2.2.1, sinkW := x.2.2.2.2 })
        | Except.ok (pos, total) =>
          (Except.ok (if w.write_return_read then pos else total), x.2.1, x.2.2.1,
            { world with engine := x.2.2.2.1, sinkW := x.2.2.2.2 }))

/-- The `loop { ... if zresult == 0 break }` body of
`ZstdCompressionWriter::flush`: at least one engine call with the chosen
directive, forwarding produced chunks, until `zresult == 0`. -/
def flushLoop (cap directive : Nat) (w : CWriter) (engine : List ZResp)
    (sinkW : List WResp) (total : Nat) :
    Option (Except PyErr Nat × List Event × CWriter × List ZResp × List WResp) :=
  match engine with
  | [] => none
  | ZResp.zerr msg :: engine' =>
    some (Except.error (PyErr.zstdError ("zstd compress error: " ++ msg)),
      [Event.engineCall directive], w, engine', sinkW)
  | ZResp.zok _ p zr :: engine' =>
    let p' := min p cap
    if 0 < p' then
      match sinkW with
      | [] => none
      | WResp.werr m :: sinkW' =>
        some (Except.error (PyErr.sinkError m),
          [Event.engineCall directive, Event.sinkWrite p'], w, engine', sinkW')
      | WResp.wok :: sinkW' =>
        let w2 := { w with bytes_compressed := w.bytes_compressed + p' }
        if zr = 0 then
          some (Except.ok (total + p'),
            [Event.engineCall directive, Event.sinkWrite p'], w2, engine', sinkW')
        else
          (flushLoop cap directive w2 engine' sinkW' (total + p')).map
            (fun x => (x.1, Event.engineCall directive :: Event.sinkWrite p' :: x.2.1,
              x.2.2.1, x.2.2.2.1, x.2.2.2.2))
    else
      if zr = 0 then
        some (Except.ok total, [Event.engineCall directive], w, engine', sinkW)
      else
        (flushLoop cap directive w engine' sinkW total).map
          (fun x => (x.1, Event.engineCall directive :: x.2.1,
            x.2.2.1, x.2.2.2.1, x.2.2.2.2))

/-- The body of `ZstdCompressionWriter::flush` after the flush-mode match:
closed check, drain loop, then the sink's own `flush` unless the writer is
in teardown (`self.closing`). -/
def flushBody (w : CWriter) (world : World) (directive : Nat) :
    Option (Except PyErr Nat × List Event × CWriter × World) :=
  if w.closed then
    some (Except.error (PyErr.valueError "stream is closed"), [], w, world)
  else
    (flushLoop w.write_size directive w world.engine world.sinkW 0).bind
      (fun x =>
        match x with
        | (Except.error e, evs, w', e', s') =>
          some (Except.error e, evs, w', { world with engine := e', sinkW := s' })
        | (Except.ok total, evs, w', e', s') =>
          let world' := { world with engine := e', sinkW := s' }
          if world'.sinkHasFlush && !w'.closing then
            match world'.sinkF with
            | [] => none
            | WResp.werr m :: rest =>
              some (Except.error (PyErr.sinkError m), evs ++ [Event.sinkFlushCall], w',
                { world' with sinkF := rest })
            | WResp.wok :: rest =>
              some (Except.ok total, evs ++ [Event.sinkFlushCall], w',
                { world' with sinkF := rest })
          else
            some (Except.ok total, evs, w', world'))

/-- `ZstdCompressionWriter::flush`: the flush-mode match (`FLUSH_BLOCK = 0`
maps to `ZSTD_e_flush = 1`, `FLUSH_FRAME = 1` to `ZSTD_e_end = 2`) runs
before the closed-state check. -/
def ZstdCompressionWriter.flush (w : CWriter) (world : World) (flush_mode : Nat) :
    Option (Except PyErr Nat × List Event × CWriter × World) :=
  match flush_mode with
  | 0 => flushBody w world 1
  | 1 => flushBody w world 2
  | m =>
    some (Except.error (PyErr.valueError ("unknown flush_mode: " ++ toString m)),
      [], w, world)

/-- `ZstdCompressionWriter::close`.  Note that `res?` propagates a flush
error before the sink's `close` is reached. -/
def ZstdCompressionWriter.close (w : CWriter) (world : World) :
    Option (Except PyErr Unit × List Event × CWriter × World) :=
  if w.closed then
    some (Except.ok (), [], w, world)
  else
    (ZstdCompressionWriter.flush { w with closing := true } world 1).bind
      (fun x =>
        match x with
        | (res, evs, w1, world1) =>
          let w2 := { w1 with closing := false, closed := true }
          match res with
          | Except.error e => some (Except.error e, evs, w2, world1)
          | Except.ok _ =>
            if world1.sinkHasClose && w2.closefd then
              match world1.sinkC with
              | [] => none
              | WResp.werr m :: rest =>
                some (Except.error (PyErr.sinkError m), evs ++ [Event.sinkCloseCall], w2,
                  { world1 with sinkC := rest })
              | WResp.wok :: rest =>
                some (Except.ok (), evs ++ [Event.sinkCloseCall], w2,
                  { world1 with sinkC := rest })
            else
              some (Except.ok (), evs, w2, world1))

/-- `ZstdCompressionWriter::readline`: raises `io.UnsupportedOperation`. -/
def ZstdCompressionWriter.readline (w : CWriter) (world : World) :
    Except PyErr Unit × List Event × CWriter × World :=
  (Except.error PyErr.unsupportedOperation, [], w, world)

/-- `ZstdCompressionWriter::readlines`: raises `io.UnsupportedOperation`. -/
def ZstdCompressionWriter.readlines (w : CWriter) (world : World) :
    Except PyErr Unit × List Event × CWriter × World :=
  (Except.error PyErr.unsupportedOperation, [], w, world)

/-- `ZstdCompressionWriter::seek`: raises `io.UnsupportedOperation`. -/
def ZstdCompressionWriter.seek (w : CWriter) (world : World) (_pos : Int) :
    Except PyErr Unit × List Event × CWriter × World :=
  (Except.error PyErr.unsupportedOperation, [], w, world)

/-- `ZstdCompressionWriter::truncate`: raises `io.UnsupportedOperation`. -/
def ZstdCompressionWriter.truncate (w : CWriter) (world : World) :
    Except PyErr Unit × List Event × CWriter × World :=
  (Except.error PyErr.unsupportedOperation, [], w, world)

/-- `ZstdCompressionWriter::read`: raises `io.UnsupportedOperation`. -/
def ZstdCompressionWriter.read (w : CWriter) (world : World) :
    Except PyErr Unit × List Event × CWriter × World :=
  (Except.error PyErr.unsupportedOperation, [], w, world)

/-- `ZstdCompressionWriter::readall`: raises `io.UnsupportedOperation`. -/
def ZstdCompressionWriter.readall (w : CWriter) (world : World) :
    Except PyErr Unit × List Event × CWriter × World :=
  (Except.error PyErr.unsupportedOperation, [], w, world)

/-- `ZstdCompressionWriter::readinto`: raises `io.UnsupportedOperation`. -/
def ZstdCompressionWriter.readinto (w : CWriter) (world : World) :
    Except PyErr Unit × List Event × CWriter × World :=
  (Except.error PyErr.unsupportedOperation, [], w, world)

/-- Sizes of the sink-write events of a trace, in order. -/
def sinkWrites : List Event → List Nat
  | [] => []
  | Event.sinkWrite s :: rest => s :: sinkWrites rest
  | _ :: rest => sinkWrites rest

/-- A trace in which every produced chunk is forwarded to the sink
immediately after the engine call that produced it, and nothing but
engine calls and such forwards occur. -/
def forwardsImmediately : List Event → Bool
  | [] => true
  | Event.engineCall _ :: Event.sinkWrite s :: rest =>
    decide (0 < s) && forwardsImmediately rest
  | Event.engineCall _ :: rest => forwardsImmediately rest
  | _ => false

/-! ## Decompressor (`decompressor.rs`)

The frame header parser `ZSTD_getFrameHeader` is modelled as a pure
function of the input buffer (`DWorld.hdr`); `ZSTD_getFrameContentSize`
is derived from it per its documented behaviour (declared size when the
header parses and declares one, `UNKNOWN` when the header withholds it,
`ERROR` on an invalid or too-small input).  `ZSTD_decompressStream` is a
response script, each response carrying consumed input bytes, the bytes
placed in the output cursor, and the returned `zresult`
(0 = frame completely decoded and flushed). -/

inductive ContentSize where
  | exact (n : Nat)
  | unknown
deriving DecidableEq, Repr

inductive HdrResult where
  | ok (cs : ContentSize)
  | tooSmall
  | invalid
deriving DecidableEq, Repr

inductive CSize where
  | size (n : Nat)
  | unknown
  | error
deriving DecidableEq, Repr

/-- `ZSTD_getFrameContentSize`, derived from the frame header parse. -/
def getFrameContentSize (hdr : List Nat → HdrResult) (buf : List Nat) : CSize :=
  match hdr buf with
  | HdrResult.ok (ContentSize.exact n) => CSize.size n
  | HdrResult.ok ContentSize.unknown => CSize.unknown
  | HdrResult.tooSmall => CSize.error
  | HdrResult.invalid => CSize.error

inductive DResp where
  | derr (msg : String)
  | dok (consumed : Nat) (output : List Nat) (zresult : Nat)
deriving DecidableEq, Repr

inductive DErr where
  | valueError (msg : String)
  | zstdError (msg : String)
  | sinkError (msg : String)
deriving DecidableEq, Repr

/-- Observable calls of a decompression operation: engine invocations
(with the values read back from the cursors), source reads and sink
writes. -/
inductive DEvent where
  | dcall (consumed : Nat) (produced : List Nat) (zresult : Nat)
  | dcallErr (msg : String)
  | srcRead (chunk : List Nat)
  | sinkWrite (data : List Nat)
deriving DecidableEq, Repr

/-- The external world of a `ZstdDecompressor`: the header parser and the
`ZSTD_decompressStream` response script. -/
structure DWorld where
  hdr : List Nat → HdrResult
  engine : List DResp

/-- The single `ZSTD_decompressStream` call of the one-shot path, with
output capacity `cap` and declared size check `expected`
(0 = size unknown, no check). -/
def oneShotCall (engine : List DResp) (bufLen cap expected : Nat) :
    Option (Except DErr (List Nat) × List DEvent × List DResp) :=
  match engine with
  | [] => none
  | DResp.derr msg :: rest =>
    some (Except.error (DErr.zstdError ("decompression error: " ++ msg)),
      [DEvent.dcallErr msg], rest)
  | DResp.dok c out zr :: rest =>
    let produced := out.take cap
    let ev := DEvent.dcall (min c bufLen) produced zr
    if zr ≠ 0 then
      some (Except.error
        (DErr.zstdError "decompression error: did not decompress full frame"),
        [ev], rest)
    else if expected ≠ 0 ∧ produced.length ≠ expected then
      some (Except.error (DErr.zstdError
        ("decompression error: decompressed " ++ toString zr
          ++ " bytes; expected " ++ toString expected)), [ev], rest)
    else
      some (Except.ok produced, [ev], rest)

/-- `ZstdDecompressor::decompress` (the one-shot whole-buffer path). -/
def ZstdDecompressor.decompress (world : DWorld) (buf : List Nat)
    (max_output_size : Nat) :
    Option (Except DErr (List Nat) × List DEvent × List DResp) :=
  match getFrameContentSize world.hdr buf with
  | CSize.error =>
    some (Except.error
      (DErr.zstdError "error determining content size from frame header"),
      [], world.engine)
  | CSize.size 0 => some (Except.ok [], [], world.engine)
  | CSize.unknown =>
    if max_output_size = 0 then
      some (Except.error
        (DErr.zstdError "could not determine content size in frame header"),
        [], world.engine)
    else
      oneShotCall world.engine buf.length max_output_size 0
  | CSize.size (n + 1) => oneShotCall world.engine buf.length (n + 1) (n + 1)

/-- An element of the Python list handed to
`decompress_content_dict_chain`: a bytes object or anything else (the
`is_instance::<PyBytes>` check). -/
inductive Chunk where
  | bytes (data : List Nat)
  | other
deriving DecidableEq, Repr

/-- Per-element accounting of a chain decode: the element index, the
chunk's byte length, the content size its header declared, the input
bytes the engine consumed, the output bytes it produced and its
`zresult`. -/
structure ChainStat where
  idx : Nat
  chunkLen : Nat
  declared : Nat
  consumed : Nat
  producedLen : Nat
  zresult : Nat
deriving DecidableEq, Repr

/-- One element of `decompress_content_dict_chain`: the bytes check, the
`ZSTD_getFrameHeader` parse requiring an exact content size, a
destination of exactly that capacity, and one `ZSTD_decompressStream`
call that must report the frame fully decoded (`zresult == 0`).  All
failure messages name the element index `i`, exactly as the `format!`
calls of the source do. -/
def chainElem (hdr : List Nat → HdrResult) (engine : List DResp) (i : Nat)
    (chunk : Chunk) :
    Option (Except DErr (List Nat × ChainStat) × List DResp) :=
  match chunk with
  | Chunk.other =>
    some (Except.error
      (DErr.valueError ("chunk " ++ toString i ++ " must be bytes")), engine)
  | Chunk.bytes data =>
    match hdr data with
    | HdrResult.invalid =>
      some (Except.error (DErr.valueError
        ("chunk " ++ toString i ++ " is not a valid zstd frame")), engine)
    | HdrResult.tooSmall =>
      some (Except.error (DErr.valueError
        ("chunk " ++ toString i ++ " is too small to contain a zstd frame")), engine)
    | HdrResult.ok ContentSize.unknown =>
      some (Except.error (DErr.valueError
        ("chunk " ++ toString i ++ " missing content size in frame")), engine)
    | HdrResult.ok (ContentSize.exact n) =>
      match engine with
      | [] => none
      | DResp.derr msg :: rest =>
        some (Except.error (DErr.zstdError
          ("could not decompress chunk " ++ toString i ++ ": " ++ msg)), rest)
      | DResp.dok c out zr :: rest =>
        if zr ≠ 0 then
          some (Except.error (DErr.zstdError
            ("chunk " ++ toString i ++ " did not decompress full frame")), rest)
        else
          some (Except.ok (out.take n,
            ⟨i, data.length, n, min c data.length, (out.take n).length, zr⟩), rest)

/-- The per-element iteration of `decompress_content_dict_chain`, starting
at element index `i`; `last` is the previous element's decompressed
buffer (returned when the chain is exhausted). -/
def chainLoop (hdr : List Nat → HdrResult) (i : Nat) (chunks : List Chunk)
    (engine : List DResp) (last : List Nat) :
    Option (Except DErr (List Nat) × List ChainStat × List DResp) :=
  match chunks with
  | [] => some (Except.ok last, [], engine)
  | c :: cs =>
    (chainElem hdr engine i c).bind
      (fun x =>
        match x with
        | (Except.error e, engine') => some (Except.error e, [], engine')
        | (Except.ok (buf, s), engine') =>
          (chainLoop hdr (i + 1) cs engine' buf).map
            (fun y => (y.1, s :: y.2.1, y.2.2)))

/-- `ZstdDecompressor::decompress_content_dict_chain`.  The source handles
element 0 out of line and then iterates from index 1; both paths perform
the same checks with the same index-tagged messages, so the embedding
runs the uniform per-element step from index 0.  The final output is the
last element's decompressed bytes. -/
def decompress_content_dict_chain (world : DWorld) (frames : List Chunk) :
    Option (Except DErr (List Nat) × List ChainStat × List DResp) :=
  match frames with
  | [] => some (Except.error (DErr.valueError "empty input chain"), [], world.engine)
  | c :: cs => chainLoop world.hdr 0 (c :: cs) world.engine []

/-- The `while in_buffer.pos < in_buffer.size` pump of
`ZstdDecompressor::copy_stream` over one source chunk, forwarding each
produced block to the sink.  On success returns the accumulated
`total_write`. -/
def pumpChunk (engine : List DResp) (sink : List WResp) (cap : Nat)
    (chunk : List Nat) (pos totalW : Nat) :
    Option (Except DErr Nat × List DEvent × List DResp × List WResp) :=
  if pos < chunk.length then
    match engine with
    | [] => none
    | DResp.derr msg :: engine' =>
      some (Except.error (DErr.zstdError ("zstd decompressor error: " ++ msg)),
        [DEvent.dcallErr msg], engine', sink)
    | DResp.dok c out zr :: engine' =>
      let pos' := min (pos + c) chunk.length
      let produced := out.take cap
      let ev := DEvent.dcall (min (pos + c) chunk.length - pos) produced zr
      if produced.length ≠ 0 then
        match sink with
        | [] => none
        | WResp.werr m :: sink' =>
          some (Except.error (DErr.sinkError m),
            [ev, DEvent.sinkWrite produced], engine', sink')
        | WResp.wok :: sink' =>
          (pumpChunk engine' sink' cap chunk pos' (totalW + produced.length)).map
            (fun x => (x.1, ev :: DEvent.sinkWrite produced :: x.2.1, x.2.2.1, x.2.2.2))
      else
        (pumpChunk engine' sink cap chunk pos' totalW).map
          (fun x => (x.1, ev :: x.2.1, x.2.2.1, x.2.2.2))
  else
    some (Except.ok totalW, [], engine, sink)

/-- The outer read loop of `ZstdDecompressor::copy_stream`: read a chunk,
stop on an empty read, otherwise pump-decompress it fully. -/
def copyLoop (src : List (List Nat)) (engine : List DResp) (sink : List WResp)
    (cap totalR totalW : Nat) :
    Option (Except DErr (Nat × Nat) × List DEvent × List DResp × List WResp) :=
  match src with
  | [] => none
  | chunk :: src' =>
    if chunk.length = 0 then
      some (Except.ok (totalR, totalW), [DEvent.srcRead chunk], engine, sink)
    else
      (pumpChunk engine sink cap chunk 0 totalW).bind
        (fun x =>
          match x with
          | (Except.error e, evs, e', s') =>
            some (Except.error e, DEvent.srcRead chunk :: evs, e', s')
          | (Except.ok totalW', evs, e', s') =>
            (copyLoop src' e' s' cap (totalR + chunk.length) totalW').map
              (fun y => (y.1, DEvent.srcRead chunk :: evs ++ y.2.1, y.2.2.1, y.2.2.2)))

/-- `ZstdDecompressor::copy_stream`.  The source and sink collaborators
are call arguments, modelled as the list of chunks successive `read`
calls yield and the sink-write response script; the `hasattr` probes are
the two capability flags. -/
def ZstdDecompressor.copy_stream (world : DWorld) (src : List (List Nat))
    (sink : List WResp) (hasRead hasWrite : Bool) (write_size : Nat) :
    Option (Except DErr (Nat × Nat) × List DEvent × List DResp × List WResp) :=
  if !hasRead then
    some (Except.error (DErr.valueError "first argument must have a read() method"),
      [], world.engine, sink)
  else if !hasWrite then
    some (Except.error (DErr.valueError "second argument must have a write() method"),
      [], world.engine, sink)
  else
    copyLoop src world.engine sink write_size 0 0

/-! ## Claims about the decompressor -/

/-- C5: one-shot decompression of a frame whose header declares content
size 0 returns an empty byte string without invoking the decompression
engine: the event trace is empty and the engine response script is left
untouched. -/
theorem c5_decompress_zero_size (world : DWorld) (buf : List Nat)
    (max_output_size : Nat)
    (h : world.hdr buf = HdrResult.ok (ContentSize.exact 0)) :
    ZstdDecompressor.decompress world buf max_output_size
      = some (Except.ok [], [], world.engine) := by
  simp [ZstdDecompressor.decompress, getFrameContentSize, h]

theorem c5_decompress_zero_size_witness :
    (DWorld.mk (fun _ => HdrResult.ok (ContentSize.exact 0)) [DResp.dok 0 [] 1]).hdr [9]
        = HdrResult.ok (ContentSize.exact 0)
    ∧ ZstdDecompressor.decompress
        (DWorld.mk (fun _ => HdrResult.ok (ContentSize.exact 0)) [DResp.dok 0 [] 1])
        [9] 0
      = some (Except.ok [], [], [DResp.dok 0 [] 1]) :=
  ⟨rfl, c5_decompress_zero_size _ _ _ rfl⟩

/-- Helper: a completed `oneShotCall` consumed exactly one engine
response, so its event trace has exactly one entry. -/
theorem oneShotCall_length (engine : List DResp) (bl cap expected : Nat)
    (res : Except DErr (List Nat)) (evs : List DEvent) (rest : List DResp)
    (h : oneShotCall engine bl cap expected = some (res, evs, rest)) :
    evs.length = 1 := by
  rcases engine with _ | ⟨resp, tail⟩
  · simp [oneShotCall] at h
  · rcases resp with msg | ⟨c, out, zr⟩
    · simp only [oneShotCall, Option.some.injEq, Prod.mk.injEq] at h
      obtain ⟨h1, h2, h3⟩ := h
      subst h2
      rfl
    · simp only [oneShotCall] at h
      by_cases hz : zr ≠ 0
      · rw [if_pos hz] at h
        simp only [Option.some.injEq, Prod.mk.injEq] at h
        obtain ⟨h1, h2, h3⟩ := h
        subst h2
        rfl
      · rw [if_neg hz] at h
        by_cases hm : expected ≠ 0 ∧ (out.take cap).length ≠ expected
        · rw [if_pos hm] at h
          simp only [Option.some.injEq, Prod.mk.injEq] at h
          obtain ⟨h1, h2, h3⟩ := h
          subst h2
          rfl
        · rw [if_neg hm] at h
          simp only [Option.some.injEq, Prod.mk.injEq] at h
          obtain ⟨h1, h2, h3⟩ := h
          subst h2
          rfl

/-- C6 (counterexample): a buffer whose frame header does not parse.  The
one-shot decompress fails with the content-size determination error
after zero engine calls, although the header declared no unknown size
and the engine reported nothing — contradicting both the claim's
"exactly one engine call" and its list of failure conditions. -/
theorem c6_decompress_counterexample :
    ZstdDecompressor.decompress (DWorld.mk (fun _ => HdrResult.invalid) []) [0] 0
      = some (Except.error
          (DErr.zstdError "error determining content size from frame header"), [], [])
    ∧ (DWorld.mk (fun _ => HdrResult.invalid) []).hdr [0] = HdrResult.invalid :=
  ⟨rfl, rfl⟩

/-- C6 (amended): the one-shot decompress makes at most one engine call:
none when the content size cannot be determined (failure), when the
declared size is zero (success with empty output), or when the size is
unknown and no bound was supplied (failure); exactly one in the
remaining cases — known nonzero size, or unknown size with a caller
bound — where it fails exactly when the engine reports an error, when
the engine reports the frame incomplete (nonzero zresult), or, only
when the content size is known, when the produced byte count differs
from the declared size.  On every failure no decompressed bytes are
returned. -/
theorem c6_decompress_characterization (world : DWorld) (buf : List Nat)
    (mos : Nat) :
    (∀ res evs rest,
      ZstdDecompressor.decompress world buf mos = some (res, evs, rest) →
      evs.length ≤ 1)
    ∧ (getFrameContentSize world.hdr buf = CSize.error →
        ZstdDecompressor.decompress world buf mos
          = some (Except.error
              (DErr.zstdError "error determining content size from frame header"),
              [], world.engine))
    ∧ (getFrameContentSize world.hdr buf = CSize.size 0 →
        ZstdDecompressor.decompress world buf mos
          = some (Except.ok [], [], world.engine))
    ∧ (getFrameContentSize world.hdr buf = CSize.unknown → mos = 0 →
        ZstdDecompressor.decompress world buf mos
          = some (Except.error
              (DErr.zstdError "could not determine content size in frame header"),
              [], world.engine))
    ∧ (∀ cap expected,
        ((∃ n, getFrameContentSize world.hdr buf = CSize.size (n + 1)
            ∧ cap = n + 1 ∧ expected = n + 1)
          ∨ (getFrameContentSize world.hdr buf = CSize.unknown ∧ mos ≠ 0
            ∧ cap = mos ∧ expected = 0)) →
        ZstdDecompressor.decompress world buf mos
            = oneShotCall world.engine buf.length cap expected
          ∧ (world.engine = [] → ZstdDecompressor.decompress world buf mos = none)
          ∧ (∀ msg rest, world.engine = DResp.derr msg :: rest →
              ZstdDecompressor.decompress world buf mos
                = some (Except.error
                    (DErr.zstdError ("decompression error: " ++ msg)),
                    [DEvent.dcallErr msg], rest))
          ∧ (∀ c out zr rest, world.engine = DResp.dok c out zr :: rest → zr ≠ 0 →
              ZstdDecompressor.decompress world buf mos
                = some (Except.error (DErr.zstdError
                    "decompression error: did not decompress full frame"),
                    [DEvent.dcall (min c buf.length) (out.take cap) zr], rest))
          ∧ (∀ c out rest, world.engine = DResp.dok c out 0 :: rest →
              expected ≠ 0 → (out.take cap).length ≠ expected →
              ZstdDecompressor.decompress world buf mos
                = some (Except.error (DErr.zstdError
                    ("decompression error: decompressed " ++ toString 0
                      ++ " bytes; expected " ++ toString expected)),
                    [DEvent.dcall (min c buf.length) (out.take cap) 0], rest))
          ∧ (∀ c out rest, world.engine = DResp.dok c out 0 :: rest →
              (expected = 0 ∨ (out.take cap).length = expected) →
              ZstdDecompressor.decompress world buf mos
                = some (Except.ok (out.take cap),
                    [DEvent.dcall (min c buf.length) (out.take cap) 0], rest))) := by
  refine ⟨?_, ?_, ?_, ?_, ?_⟩
  · intro res evs rest h
    rcases hcs : getFrameContentSize world.hdr buf with n | _ | _
    · rcases n with _ | n
      · rw [ZstdDecompressor.decompress, hcs] at h
        simp only [Option.some.injEq, Prod.mk.injEq] at h
        obtain ⟨-, h2, -⟩ := h
        subst h2
        simp
      · rw [ZstdDecompressor.decompress, hcs] at h
        simp [oneShotCall_length _ _ _ _ _ _ _ h]
    · rw [ZstdDecompressor.decompress, hcs] at h
      by_cases hm : mos = 0
      · rw [if_pos hm] at h
        simp only [Option.some.injEq, Prod.mk.injEq] at h
        obtain ⟨-, h2, -⟩ := h
        subst h2
        simp
      · rw [if_neg hm] at h
        simp [oneShotCall_length _ _ _ _ _ _ _ h]
    · rw [ZstdDecompressor.decompress, hcs] at h
      simp only [Option.some.injEq, Prod.mk.injEq] at h
      obtain ⟨-, h2, -⟩ := h
      subst h2
      simp
  · intro hcs
    rw [ZstdDecompressor.decompress, hcs]
  · intro hcs
    rw [ZstdDecompressor.decompress, hcs]
  · intro hcs hm
    rw [ZstdDecompressor.decompress, hcs, if_pos hm]
  · intro cap expected hcase
    have hEq : ZstdDecompressor.decompress world buf mos
        = oneShotCall world.engine buf.length cap expected := by
      rcases hcase with ⟨n, hcs, hc, he⟩ | ⟨hcs, hm, hc, he⟩
      · subst hc he
        rw [ZstdDecompressor.decompress, hcs]
      · subst hc he
        rw [ZstdDecompressor.decompress, hcs, if_neg hm]
    refine ⟨hEq, ?_, ?_, ?_, ?_, ?_⟩
    · intro hnil
      rw [hEq, hnil]
      rfl
    · intro msg rest heng
      rw [hEq, heng]
      rfl
    · intro c out zr rest heng hz
      rw [hEq, heng]
      simp [oneShotCall, hz]
    · intro c out rest heng hexp hlen
      rw [hEq, heng]
      have hlen' : ¬ min cap out.length = expected := by
        simpa [List.length_take] using hlen
      simp [oneShotCall, hexp, hlen']
    · intro c out rest heng hok
      rw [hEq, heng]
      rcases hok with h0 | hlen
      · subst h0
        simp [oneShotCall]
      · have hlen' : min cap out.length = expected := by
          simpa [List.length_take] using hlen
        simp [oneShotCall, hlen']

theorem c6_decompress_characterization_witness :
    ZstdDecompressor.decompress
        (DWorld.mk (fun _ => HdrResult.ok (ContentSize.exact 2)) [DResp.dok 3 [5, 6] 0])
        [1, 2, 3] 0
      = some (Except.ok [5, 6], [DEvent.dcall 3 [5, 6] 0], []) := by
  have h := ((c6_decompress_characterization
      (DWorld.mk (fun _ => HdrResult.ok (ContentSize.exact 2)) [DResp.dok 3 [5, 6] 0])
      [1, 2, 3] 0).2.2.2.2 2 2
      (Or.inl ⟨1, rfl, rfl, rfl⟩)).2.2.2.2.2 3 [5, 6] [] rfl (Or.inr rfl)
  simpa using h

/-- C2 (counterexample): a frame whose header declares content size 0 but
whose engine decode reports the frame incomplete (a truncated zero-size
frame).  The one-shot decompress short-circuits to an empty success
without calling the engine; the one-element chain pushes the frame
through the engine and fails — so a chain of length 1 does not fail
exactly when the one-shot decompressor fails. -/
theorem c2_chain_single_counterexample :
    ZstdDecompressor.decompress
        (DWorld.mk (fun _ => HdrResult.ok (ContentSize.exact 0)) [DResp.dok 0 [] 1])
        [9] 0
      = some (Except.ok [], [], [DResp.dok 0 [] 1])
    ∧ decompress_content_dict_chain
        (DWorld.mk (fun _ => HdrResult.ok (ContentSize.exact 0)) [DResp.dok 0 [] 1])
        [Chunk.bytes [9]]
      = some (Except.error
          (DErr.zstdError "chunk 0 did not decompress full frame"), [], []) :=
  ⟨rfl, rfl⟩

/-- C2 (amended): for a single frame whose header declares an exact
NONZERO content size and whose engine response honours the declared size
on a fully decoded frame, the one-element chain returns exactly the same
bytes as the one-shot decompressor and fails exactly when it fails.  (As
stated the claim fails on zero-declared-size frames, which the one-shot
path short-circuits without an engine call, and on engine responses that
complete the frame with fewer bytes than declared, which only the
one-shot path rejects.) -/
theorem c2_chain_single_amended (world : DWorld) (data : List Nat) (n mos : Nat)
    (hhdr : world.hdr data = HdrResult.ok (ContentSize.exact (n + 1)))
    (heng : ∀ c out zr, world.engine.head? = some (DResp.dok c out zr) → zr = 0 →
      (out.take (n + 1)).length = n + 1) :
    Option.map (fun r => Except.toOption r.1)
        (decompress_content_dict_chain world [Chunk.bytes data])
      = Option.map (fun r => Except.toOption r.1)
        (ZstdDecompressor.decompress world data mos) := by
  rcases heng0 : world.engine with _ | ⟨resp, rest⟩
  · simp [decompress_content_dict_chain, chainLoop, chainElem, hhdr, heng0,
      ZstdDecompressor.decompress, getFrameContentSize, oneShotCall]
  · rcases resp with msg | ⟨c, out, zr⟩
    · simp [decompress_content_dict_chain, chainLoop, chainElem, hhdr, heng0,
        ZstdDecompressor.decompress, getFrameContentSize, oneShotCall, Except.toOption]
    · by_cases hz : zr = 0
      · subst hz
        have hlen := heng c out 0 (by rw [heng0]; rfl) rfl
        simp [decompress_content_dict_chain, chainLoop, chainElem, hhdr, heng0,
          ZstdDecompressor.decompress, getFrameContentSize, oneShotCall, hlen]
      · simp [decompress_content_dict_chain, chainLoop, chainElem, hhdr, heng0,
          ZstdDecompressor.decompress, getFrameContentSize, oneShotCall, hz,
          Except.toOption]

theorem c2_chain_single_amended_witness :
    Option.map (fun r => Except.toOption r.1)
        (decompress_content_dict_chain
          (DWorld.mk (fun _ => HdrResult.ok (ContentSize.exact 1)) [DResp.dok 5 [7] 0])
          [Chunk.bytes [1, 2, 3]])
      = Option.map (fun r => Except.toOption r.1)
        (ZstdDecompressor.decompress
          (DWorld.mk (fun _ => HdrResult.ok (ContentSize.exact 1)) [DResp.dok 5 [7] 0])
          [1, 2, 3] 0) := by
  refine c2_chain_single_amended _ _ 0 0 rfl ?_
  intro c out zr h hz
  simp at h
  obtain ⟨h1, h2, h3⟩ := h
  subst h2
  rfl

/-- Helper: a successful chain element was a bytes chunk whose header
declared an exact content size, consumed exactly one engine response
that reported the frame fully decoded, and recorded the element's
accounting in its stat. -/
theorem chainElem_ok (hdr : List Nat → HdrResult) (engine : List DResp) (i : Nat)
    (chunk : Chunk) (buf : List Nat) (s : ChainStat) (engine1 : List DResp)
    (h : chainElem hdr engine i chunk = some (Except.ok (buf, s), engine1)) :
    ∃ data n c o, chunk = Chunk.bytes data
      ∧ hdr data = HdrResult.ok (ContentSize.exact n)
      ∧ engine = DResp.dok c o 0 :: engine1
      ∧ buf = o.take n
      ∧ s = ⟨i, data.length, n, min c data.length, (o.take n).length, 0⟩ := by
  rcases chunk with data | _
  · rcases hh : hdr data with cs | _ | _
    · rcases cs with n | _
      · rcases engine with _ | ⟨resp, tail⟩
        · simp [chainElem, hh] at h
        · rcases resp with msg | ⟨c, o, zr⟩
          · simp [chainElem, hh] at h
          · by_cases hz : zr = 0
            · subst hz
              simp only [chainElem, hh, ne_eq, not_true_eq_false, if_false,
                Option.some.injEq, Prod.mk.injEq, Except.ok.injEq] at h
              obtain ⟨⟨hb, hs⟩, he⟩ := h
              exact ⟨data, n, c, o, rfl, hh, by rw [he], hb.symm, hs.symm⟩
            · simp [chainElem, hh, hz] at h
      · simp [chainElem, hh] at h
    · simp [chainElem, hh] at h
    · simp [chainElem, hh] at h
  · simp [chainElem] at h

/-- Helper: a successful chain loop run produced one stat per chunk; the
j-th chunk was a bytes object whose header declared an exact size, the
j-th engine response reported a fully decoded frame, and the j-th stat
records that element's accounting. -/
theorem chainLoop_ok (hdr : List Nat → HdrResult) :
    ∀ (chunks : List Chunk) (i : Nat) (engine : List DResp) (last out : List Nat)
      (stats : List ChainStat) (rest : List DResp),
      chainLoop hdr i chunks engine last = some (Except.ok out, stats, rest) →
      stats.length = chunks.length
        ∧ ∀ j, j < chunks.length →
            ∃ data n c o, chunks.get? j = some (Chunk.bytes data)
              ∧ hdr data = HdrResult.ok (ContentSize.exact n)
              ∧ engine.get? j = some (DResp.dok c o 0)
              ∧ stats.get? j = some ⟨i + j, data.length, n, min c data.length,
                  (o.take n).length, 0⟩ := by
  intro chunks
  induction chunks with
  | nil =>
    intro i engine last out stats rest h
    simp only [chainLoop, Option.some.injEq, Prod.mk.injEq] at h
    obtain ⟨-, h2, -⟩ := h
    subst h2
    exact ⟨rfl, fun j hj => absurd hj (by simp)⟩
  | cons c cs ih =>
    intro i engine last out stats rest h
    rw [chainLoop, Option.bind_eq_some] at h
    obtain ⟨⟨res1, engine1⟩, helem, h⟩ := h
    rcases res1 with e | ⟨buf, s⟩
    · simp at h
    · dsimp only at h
      rw [Option.map_eq_some'] at h
      obtain ⟨⟨r2, stats2, engine2⟩, hrec, h⟩ := h
      simp only [Prod.mk.injEq] at h
      obtain ⟨h1, h2, h3⟩ := h
      subst h1 h2 h3
      obtain ⟨data, n, c0, o, hck, hh, heng, hbuf, hs⟩ := chainElem_ok _ _ _ _ _ _ _ helem
      obtain ⟨hlen, hj⟩ := ih _ _ _ _ _ _ hrec
      refine ⟨by simp [hlen], ?_⟩
      intro j hjlt
      rcases j with _ | j'
      · subst hck hs
        exact ⟨data, n, c0, o, by simp, hh, by simp [heng], by simp⟩
      · obtain ⟨data', n', c', o', hck', hh', heng', hst'⟩ :=
          hj j' (by simpa using hjlt)
        refine ⟨data', n', c', o', by simpa using hck', hh', ?_, ?_⟩
        · rw [heng]
          simpa using heng'
        · rw [show i + (j' + 1) = i + 1 + j' from by omega]
          simpa using hst'

/-- C3: a successful `decompress_content_dict_chain` run made exactly one
engine call per chain element, each on a bytes chunk whose header
declared an exact content size and each reporting a fully decoded frame
(`zresult = 0`); given the zstd guarantee that a fully decoded frame
consumes exactly its frame bytes and yields exactly its declared size,
every element's decode consumed its whole chunk and produced exactly the
declared size.  Moreover an element that is not bytes, whose header
fails to parse or is too small, whose header withholds the content size,
or whose decode errors or leaves the frame incomplete, fails with an
error naming that element's index. -/
theorem c3_chain_per_element :
    (∀ (world : DWorld) (frames : List Chunk) (out : List Nat)
        (stats : List ChainStat) (rest : List DResp),
      decompress_content_dict_chain world frames
          = some (Except.ok out, stats, rest) →
      stats.length = frames.length
        ∧ (∀ j, j < frames.length →
            ∃ data n c o, frames.get? j = some (Chunk.bytes data)
              ∧ world.hdr data = HdrResult.ok (ContentSize.exact n)
              ∧ world.engine.get? j = some (DResp.dok c o 0)
              ∧ stats.get? j = some ⟨j, data.length, n, min c data.length,
                  (o.take n).length, 0⟩)
        ∧ ((∀ j data n c o, frames.get? j = some (Chunk.bytes data) →
              world.hdr data = HdrResult.ok (ContentSize.exact n) →
              world.engine.get? j = some (DResp.dok c o 0) →
              c = data.length ∧ o.length = n) →
            ∀ s ∈ stats, s.consumed = s.chunkLen ∧ s.producedLen = s.declared))
    ∧ (∀ (world : DWorld) (c : Chunk) (cs : List Chunk),
        decompress_content_dict_chain world (c :: cs)
          = chainLoop world.hdr 0 (c :: cs) world.engine [])
    ∧ (∀ (hdr : List Nat → HdrResult) (i : Nat) (cs : List Chunk)
        (engine : List DResp) (last : List Nat),
        (chainLoop hdr i (Chunk.other :: cs) engine last
          = some (Except.error (DErr.valueError
              ("chunk " ++ toString i ++ " must be bytes")), [], engine))
        ∧ (∀ data, hdr data = HdrResult.invalid →
            chainLoop hdr i (Chunk.bytes data :: cs) engine last
              = some (Except.error (DErr.valueError
                  ("chunk " ++ toString i ++ " is not a valid zstd frame")),
                  [], engine))
        ∧ (∀ data, hdr data = HdrResult.tooSmall →
            chainLoop hdr i (Chunk.bytes data :: cs) engine last
              = some (Except.error (DErr.valueError
                  ("chunk " ++ toString i ++ " is too small to contain a zstd frame")),
                  [], engine))
        ∧ (∀ data, hdr data = HdrResult.ok ContentSize.unknown →
            chainLoop hdr i (Chunk.bytes data :: cs) engine last
              = some (Except.error (DErr.valueError
                  ("chunk " ++ toString i ++ " missing content size in frame")),
                  [], engine))
        ∧ (∀ data n c o zr rest2, hdr data = HdrResult.ok (ContentSize.exact n) →
            engine = DResp.dok c o zr :: rest2 → zr ≠ 0 →
            chainLoop hdr i (Chunk.bytes data :: cs) engine last
              = some (Except.error (DErr.zstdError
                  ("chunk " ++ toString i ++ " did not decompress full frame")),
                  [], rest2))
        ∧ (∀ data n msg rest2, hdr data = HdrResult.ok (ContentSize.exact n) →
            engine = DResp.derr msg :: rest2 →
            chainLoop hdr i (Chunk.bytes data :: cs) engine last
              = some (Except.error (DErr.zstdError
                  ("could not decompress chunk " ++ toString i ++ ": " ++ msg)),
                  [], rest2))) := by
  refine ⟨?_, ?_, ?_⟩
  · intro world frames out stats rest h
    rcases frames with _ | ⟨c, cs⟩
    · simp [decompress_content_dict_chain] at h
    · rw [show decompress_content_dict_chain world (c :: cs)
          = chainLoop world.hdr 0 (c :: cs) world.engine [] from rfl] at h
      obtain ⟨hlen, hj⟩ := chainLoop_ok _ _ _ _ _ _ _ _ h
      refine ⟨hlen, fun j hjlt => ?_, ?_⟩
      · obtain ⟨data, n, c0, o, h1, h2, h3, h4⟩ := hj j hjlt
        exact ⟨data, n, c0, o, h1, h2, h3, by simpa using h4⟩
      · intro honest s hs
        obtain ⟨j, hget⟩ := List.mem_iff_get?.mp hs
        obtain ⟨hlt, -⟩ := List.get?_eq_some.mp hget
        have hjlt : j < (c :: cs).length := hlen ▸ hlt
        obtain ⟨data, n, c0, o, h1, h2, h3, h4⟩ := hj j hjlt
        obtain ⟨hc, ho⟩ := honest j data n c0 o h1 h2 h3
        rw [hget] at h4
        injection h4 with h4
        subst h4
        subst hc
        constructor
        · simp
        · simp [List.length_take, ho]
  · intro world c cs
    rfl
  · intro hdr i cs engine last
    refine ⟨?_, ?_, ?_, ?_, ?_, ?_⟩
    · simp [chainLoop, chainElem]
    · intro data hh
      simp [chainLoop, chainElem, hh]
    · intro data hh
      simp [chainLoop, chainElem, hh]
    · intro data hh
      simp [chainLoop, chainElem, hh]
    · intro data n c o zr rest2 hh heng hz
      subst heng
      simp [chainLoop, chainElem, hh, hz]
    · intro data n msg rest2 hh heng
      subst heng
      simp [chainLoop, chainElem, hh]

theorem c3_chain_per_element_witness :
    ([⟨0, 2, 2, 2, 2, 0⟩, ⟨1, 1, 1, 1, 1, 0⟩] : List ChainStat).length
      = [Chunk.bytes [1, 2], Chunk.bytes [3]].length :=
  (c3_chain_per_element.1
    (DWorld.mk (fun d => HdrResult.ok (ContentSize.exact d.length))
      [DResp.dok 2 [10, 20] 0, DResp.dok 1 [30] 0])
    [Chunk.bytes [1, 2], Chunk.bytes [3]] [30]
    [⟨0, 2, 2, 2, 2, 0⟩, ⟨1, 1, 1, 1, 1, 0⟩] [] rfl).1

/-- Payloads of the sink-write events of a decompression trace. -/
def dWritten : List DEvent → List (List Nat)
  | [] => []
  | DEvent.sinkWrite d :: rest => d :: dWritten rest
  | _ :: rest => dWritten rest

/-- Outputs produced by the engine calls of a decompression trace. -/
def dDecoded : List DEvent → List (List Nat)
  | [] => []
  | DEvent.dcall _ out _ :: rest => out :: dDecoded rest
  | _ :: rest => dDecoded rest

/-- Input bytes consumed by the engine calls of a decompression trace. -/
def dConsumed : List DEvent → Nat
  | [] => 0
  | DEvent.dcall c _ _ :: rest => c + dConsumed rest
  | _ :: rest => dConsumed rest

/-- Chunks returned by the source reads of a decompression trace. -/
def dReads : List DEvent → List (List Nat)
  | [] => []
  | DEvent.srcRead ch :: rest => ch :: dReads rest
  | _ :: rest => dReads rest

/-- A trace in which every nonempty engine output is forwarded to the
sink by the immediately following event and nothing else is written to
the sink. -/
def dForwards : List DEvent → Bool
  | [] => true
  | DEvent.dcall _ out _ :: DEvent.sinkWrite d :: rest =>
    decide (d = out) && decide (d ≠ []) && dForwards rest
  | DEvent.dcall _ out _ :: rest => decide (out = []) && dForwards rest
  | DEvent.srcRead _ :: rest => dForwards rest
  | _ => false

theorem dWritten_append (a b : List DEvent) :
    dWritten (a ++ b) = dWritten a ++ dWritten b := by
  induction a with
  | nil => rfl
  | cons e rest ih => cases e <;> simp [dWritten, ih]

theorem dDecoded_append (a b : List DEvent) :
    dDecoded (a ++ b) = dDecoded a ++ dDecoded b := by
  induction a with
  | nil => rfl
  | cons e rest ih => cases e <;> simp [dDecoded, ih]

theorem dConsumed_append (a b : List DEvent) :
    dConsumed (a ++ b) = dConsumed a + dConsumed b := by
  induction a with
  | nil => simp [dConsumed]
  | cons e rest ih => cases e <;> simp [dConsumed, ih, Nat.add_assoc]

theorem dReads_append (a b : List DEvent) :
    dReads (a ++ b) = dReads a ++ dReads b := by
  induction a with
  | nil => rfl
  | cons e rest ih => cases e <;> simp [dReads, ih]

/-- Helper: an engine call with empty output is transparent to the
forwarding discipline. -/
theorem dForwards_cons_empty (c zr : Nat) (rest : List DEvent) :
    dForwards (DEvent.dcall c [] zr :: rest) = dForwards rest := by
  cases rest with
  | nil => rfl
  | cons e rest2 =>
    cases e with
    | dcall c2 out2 zr2 => simp [dForwards]
    | dcallErr m => simp [dForwards]
    | srcRead ch => simp [dForwards]
    | sinkWrite d =>
      simp [dForwards]

/-- Helper: a completed pump over one source chunk consumed the chunk
completely, accumulated exactly the forwarded byte count, delivered to
the sink exactly the engine's outputs in order and immediately, and read
nothing from the source. -/
theorem pumpChunk_ok (cap : Nat) :
    ∀ (engine : List DResp) (sink : List WResp) (chunk : List Nat) (pos totalW : Nat)
      (t : Nat) (evs : List DEvent) (e' : List DResp) (s' : List WResp),
      pumpChunk engine sink cap chunk pos totalW = some (Except.ok t, evs, e', s') →
      pos ≤ chunk.length →
      t = totalW + ((dWritten evs).map List.length).sum
        ∧ dConsumed evs = chunk.length - pos
        ∧ (dWritten evs).flatten = (dDecoded evs).flatten
        ∧ dReads evs = []
        ∧ (∀ tl, dForwards tl = true → dForwards (evs ++ tl) = true) := by
  intro engine
  induction engine with
  | nil =>
    intro sink chunk pos totalW t evs e' s' h hle
    simp only [pumpChunk] at h
    by_cases hp : pos < chunk.length
    · rw [if_pos hp] at h
      exact absurd h (by simp)
    · rw [if_neg hp] at h
      simp only [Option.some.injEq, Prod.mk.injEq, Except.ok.injEq] at h
      obtain ⟨h1, h2, h3, h4⟩ := h
      subst h1 h2
      exact ⟨by simp [dWritten], by simp [dConsumed]; omega, by simp [dWritten, dDecoded],
        by simp [dReads], fun tl htl => by simpa using htl⟩
  | cons resp tail ih =>
    intro sink chunk pos totalW t evs e' s' h hle
    rcases resp with msg | ⟨c, out, zr⟩ <;> simp only [pumpChunk] at h
    · by_cases hp : pos < chunk.length
      · rw [if_pos hp] at h
        simp at h
      · rw [if_neg hp] at h
        simp only [Option.some.injEq, Prod.mk.injEq, Except.ok.injEq] at h
        obtain ⟨h1, h2, h3, h4⟩ := h
        subst h1 h2
        exact ⟨by simp [dWritten], by simp [dConsumed]; omega,
          by simp [dWritten, dDecoded], by simp [dReads],
          fun tl htl => by simpa using htl⟩
    · by_cases hp : pos < chunk.length
      · rw [if_pos hp] at h
        by_cases hq : (out.take cap).length ≠ 0
        · rw [if_pos hq] at h
          rcases sink with _ | ⟨sw, sink'⟩
          · simp at h
          rcases sw with _ | m
          · rw [Option.map_eq_some'] at h
            obtain ⟨⟨r1, evs1, e1, s1⟩, hrec, h⟩ := h
            simp only [Prod.mk.injEq] at h
            obtain ⟨h1, h2, h3, h4⟩ := h
            subst h1 h2 h3 h4
            obtain ⟨ht1, hc1, hj1, hr1, hf1⟩ :=
              ih _ _ _ _ _ _ _ _ hrec (min_le_right _ _)
            refine ⟨?_, ?_, ?_, ?_, ?_⟩
            · simp only [dWritten, dDecoded, List.map_cons, List.sum_cons]
              omega
            · simp only [dConsumed]
              omega
            · simp only [dWritten, dDecoded, List.flatten_cons]
              rw [hj1]
            · simpa [dReads] using hr1
            · intro tl htl
              have hthis := hf1 tl htl
              have hne : List.take cap out ≠ [] := by
                intro hcon
                rw [hcon] at hq
                simp at hq
              simp only [List.cons_append]
              simp [dForwards, hthis, hne]
          · simp at h
        · rw [if_neg hq, Option.map_eq_some'] at h
          obtain ⟨⟨r1, evs1, e1, s1⟩, hrec, h⟩ := h
          simp only [Prod.mk.injEq] at h
          obtain ⟨h1, h2, h3, h4⟩ := h
          subst h1 h2 h3 h4
          obtain ⟨ht1, hc1, hj1, hr1, hf1⟩ :=
            ih _ _ _ _ _ _ _ _ hrec (min_le_right _ _)
          have hout : out.take cap = [] :=
            List.length_eq_zero.mp (not_not.mp hq)
          refine ⟨?_, ?_, ?_, ?_, ?_⟩
          · simpa [dWritten] using ht1
          · simp only [dConsumed]
            omega
          · simpa [dWritten, dDecoded, hout] using hj1
          · simpa [dReads] using hr1
          · intro tl htl
            have := hf1 tl htl
            simp only [List.cons_append, hout, dForwards_cons_empty]
            exact this
      · rw [if_neg hp] at h
        simp only [Option.some.injEq, Prod.mk.injEq, Except.ok.injEq] at h
        obtain ⟨h1, h2, h3, h4⟩ := h
        subst h1 h2
        exact ⟨by simp [dWritten], by simp [dConsumed]; omega,
          by simp [dWritten, dDecoded], by simp [dReads],
          fun tl htl => by simpa using htl⟩

/-- Helper: a completed copy loop read source chunks up to and including
the first empty one, fully decompressed each nonempty chunk, and
accumulated the read and written byte totals. -/
theorem copyLoop_ok (cap : Nat) :
    ∀ (src : List (List Nat)) (engine : List DResp) (sink : List WResp)
      (totalR totalW tr tw : Nat) (evs : List DEvent) (e' : List DResp)
      (s' : List WResp),
      copyLoop src engine sink cap totalR totalW
          = some (Except.ok (tr, tw), evs, e', s') →
      ∃ pre post, src = pre ++ [] :: post
        ∧ (∀ ch ∈ pre, ch ≠ [])
        ∧ tr = totalR + (pre.map List.length).sum
        ∧ tw = totalW + ((dWritten evs).map List.length).sum
        ∧ (dWritten evs).flatten = (dDecoded evs).flatten
        ∧ dConsumed evs = (pre.map List.length).sum
        ∧ dReads evs = pre ++ [[]]
        ∧ dForwards evs = true := by
  intro src
  induction src with
  | nil =>
    intro engine sink totalR totalW tr tw evs e' s' h
    simp [copyLoop] at h
  | cons chunk src' ih =>
    intro engine sink totalR totalW tr tw evs e' s' h
    by_cases hz : chunk.length = 0
    · have hch : chunk = [] := List.length_eq_zero.mp hz
      rw [copyLoop, if_pos hz] at h
      simp only [Option.some.injEq, Prod.mk.injEq, Except.ok.injEq] at h
      obtain ⟨⟨h1a, h1b⟩, h2, h3, h4⟩ := h
      subst h1a h1b h2
      exact ⟨[], src', by simp [hch], by simp, by simp, by simp [dWritten],
        by simp [dWritten, dDecoded], by simp [dConsumed], by simp [dReads, hch],
        rfl⟩
    · rw [copyLoop, if_neg hz, Option.bind_eq_some] at h
      obtain ⟨⟨res1, pevs, e1, s1⟩, hpump, h⟩ := h
      rcases res1 with e | tw1
      · simp at h
      · dsimp only at h
        rw [Option.map_eq_some'] at h
        obtain ⟨⟨r2, evs2, e2, s2⟩, hrec, h⟩ := h
        simp only [Prod.mk.injEq] at h
        obtain ⟨h1, h2, h3, h4⟩ := h
        subst h1 h2 h3 h4
        obtain ⟨ht1, hc1, hj1, hr1, hf1⟩ :=
          pumpChunk_ok _ _ _ _ _ _ _ _ _ _ hpump (Nat.zero_le _)
        obtain ⟨pre', post', hsrc, hne, htr, htw, hjoin, hcons, hreads, hfwd⟩ :=
          ih _ _ _ _ _ _ _ _ _ hrec
        refine ⟨chunk :: pre', post', by simp [hsrc], ?_, ?_, ?_, ?_, ?_, ?_, ?_⟩
        · intro ch hch
          rcases List.mem_cons.mp hch with hch2 | hch2
          · subst hch2
            exact fun hc => hz (by simp [hc])
          · exact hne ch hch2
        · simp only [List.map_cons, List.sum_cons]
          omega
        · simp only [dWritten, List.append_eq, dWritten_append, List.map_append,
            List.sum_append]
          omega
        · simp only [dWritten, dDecoded, List.append_eq, dWritten_append,
            dDecoded_append, List.flatten_append]
          rw [hj1, hjoin]
        · simp only [dConsumed, List.append_eq, dConsumed_append, List.map_cons,
            List.sum_cons]
          omega
        · simp only [dReads, List.append_eq, dReads_append, hr1, hreads]
          simp
        · simp only [List.cons_append]
          rw [show dForwards (DEvent.srcRead chunk :: (pevs ++ evs2))
              = dForwards (pevs ++ evs2) from rfl]
          exact hf1 evs2 hfwd

/-- C7: a completed `copy_stream` run terminated at the first empty
source read (even mid-frame), fully pump-decompressed each chunk read
before it — the engine consumed every byte of every nonempty chunk —
forwarded each produced block to the sink immediately as it was
produced, delivered to the sink exactly the engine's outputs in order,
and returned the pair (total bytes read = sum of the lengths of the
chunks read, total bytes written to the sink). -/
theorem c7_copy_stream (world : DWorld) (src : List (List Nat)) (sink : List WResp)
    (write_size tr tw : Nat) (evs : List DEvent) (e' : List DResp) (s' : List WResp)
    (h : ZstdDecompressor.copy_stream world src sink true true write_size
        = some (Except.ok (tr, tw), evs, e', s')) :
    ∃ pre post, src = pre ++ [] :: post
      ∧ (∀ ch ∈ pre, ch ≠ [])
      ∧ dReads evs = pre ++ [[]]
      ∧ tr = (pre.map List.length).sum
      ∧ dConsumed evs = tr
      ∧ tw = ((dWritten evs).map List.length).sum
      ∧ (dWritten evs).flatten = (dDecoded evs).flatten
      ∧ dForwards evs = true := by
  rw [show ZstdDecompressor.copy_stream world src sink true true write_size
      = copyLoop src world.engine sink write_size 0 0 from rfl] at h
  obtain ⟨pre, post, h1, h2, h3, h4, h5, h6, h7, h8⟩ :=
    copyLoop_ok _ _ _ _ _ _ _ _ _ _ _ h
  exact ⟨pre, post, h1, h2, h7, by omega, by omega, by omega, h5, h8⟩

theorem c7_copy_stream_witness :
    ∃ pre post, [[1, 2], []] = pre ++ [] :: post
      ∧ (∀ ch ∈ pre, ch ≠ [])
      ∧ dReads [DEvent.srcRead [1, 2], DEvent.dcall 1 [4] 0, DEvent.sinkWrite [4],
          DEvent.dcall 1 [] 0, DEvent.srcRead []] = pre ++ [[]]
      ∧ 2 = (pre.map List.length).sum
      ∧ dConsumed [DEvent.srcRead [1, 2], DEvent.dcall 1 [4] 0, DEvent.sinkWrite [4],
          DEvent.dcall 1 [] 0, DEvent.srcRead []] = 2
      ∧ 1 = ((dWritten [DEvent.srcRead [1, 2], DEvent.dcall 1 [4] 0,
          DEvent.sinkWrite [4], DEvent.dcall 1 [] 0,
          DEvent.srcRead []]).map List.length).sum
      ∧ (dWritten [DEvent.srcRead [1, 2], DEvent.dcall 1 [4] 0, DEvent.sinkWrite [4],
          DEvent.dcall 1 [] 0, DEvent.srcRead []]).flatten
        = (dDecoded [DEvent.srcRead [1, 2], DEvent.dcall 1 [4] 0, DEvent.sinkWrite [4],
            DEvent.dcall 1 [] 0, DEvent.srcRead []]).flatten
      ∧ dForwards [DEvent.srcRead [1, 2], DEvent.dcall 1 [4] 0, DEvent.sinkWrite [4],
          DEvent.dcall 1 [] 0, DEvent.srcRead []] = true :=
  c7_copy_stream
    (DWorld.mk (fun _ => HdrResult.ok ContentSize.unknown)
      [DResp.dok 1 [4] 0, DResp.dok 1 [] 0])
    [[1, 2], []] [WResp.wok] 4 2 1
    [DEvent.srcRead [1, 2], DEvent.dcall 1 [4] 0, DEvent.sinkWrite [4],
      DEvent.dcall 1 [] 0, DEvent.srcRead []] [] [] rfl

/-! ## Claims about the compression writer -/

/-- Helper: a trace of immediate forwards stays one when an engine call
is prepended. -/
theorem forwards_cons_engine (d : Nat) (evs : List Event)
    (h : forwardsImmediately evs = true) :
    forwardsImmediately (Event.engineCall d :: evs) = true := by
  cases evs with
  | nil => rfl
  | cons e rest =>
    cases e with
    | engineCall d2 => exact h
    | sinkWrite s => exact Bool.noConfusion h
    | sinkFlushCall => exact Bool.noConfusion h
    | sinkCloseCall => exact Bool.noConfusion h

/-- Helper: a completed write loop consumed the whole input, returned the
accumulated sink-write total, increased `bytes_compressed` by exactly the
bytes forwarded to the sink, and forwarded every produced chunk
immediately; it performs no sink flush or close. -/
theorem writeLoop_ok (cap size : Nat) :
    ∀ (engine : List ZResp) (sinkW : List WResp) (w : CWriter) (pos total : Nat)
      (p t : Nat) (evs : List Event) (w' : CWriter) (e' : List ZResp) (s' : List WResp),
      writeLoop cap size engine sinkW w pos total
          = some (Except.ok (p, t), evs, w', e', s') →
      pos ≤ size →
      p = size ∧ t = total + (sinkWrites evs).sum
        ∧ w'.bytes_compressed = w.bytes_compressed + (sinkWrites evs).sum
        ∧ forwardsImmediately evs = true
        ∧ Event.sinkFlushCall ∉ evs ∧ Event.sinkCloseCall ∉ evs := by
  intro engine
  induction engine with
  | nil =>
    intro sinkW w pos total p t evs w' e' s' h hle
    simp only [writeLoop] at h
    by_cases hp : pos < size
    · rw [if_pos hp] at h
      exact absurd h (by simp)
    · rw [if_neg hp] at h
      simp only [Option.some.injEq, Prod.mk.injEq, Except.ok.injEq] at h
      obtain ⟨⟨hp', ht⟩, h2, h3, h4, h5⟩ := h
      subst h2 h3
      exact ⟨by omega, by simp [sinkWrites, ← ht], by simp [sinkWrites], rfl, by simp, by simp⟩
  | cons resp tail ih =>
    intro sinkW w pos total p t evs w' e' s' h hle
    rcases resp with msg | ⟨c, pr, zr⟩ <;> simp only [writeLoop] at h
    · by_cases hp : pos < size
      · rw [if_pos hp] at h
        simp at h
      · rw [if_neg hp] at h
        simp only [Option.some.injEq, Prod.mk.injEq, Except.ok.injEq] at h
        obtain ⟨⟨hp', ht⟩, h2, h3, h4, h5⟩ := h
        subst h2 h3
        exact ⟨by omega, by simp [sinkWrites, ← ht], by simp [sinkWrites], rfl, by simp, by simp⟩
    · by_cases hp : pos < size
      · rw [if_pos hp] at h
        by_cases hq : 0 < min pr cap
        · rw [if_pos hq] at h
          rcases sinkW with _ | ⟨sw, sinkW'⟩
          · simp at h
          rcases sw with _ | m
          · rw [Option.map_eq_some'] at h
            obtain ⟨⟨r1, evs1, w1, e1, s1⟩, hrec, h⟩ := h
            simp only [Prod.mk.injEq] at h
            obtain ⟨h1, h2, h3, h4, h5⟩ := h
            subst h1 h2 h3 h4 h5
            obtain ⟨hp1, ht1, hbc1, hfw1, hnf1, hnc1⟩ :=
              ih _ _ _ _ _ _ _ _ _ _ hrec (min_le_right _ _)
            refine ⟨hp1, ?_, ?_, ?_, by simp [hnf1], by simp [hnc1]⟩
            · simp only [sinkWrites, List.sum_cons]
              omega
            · simp only [sinkWrites, List.sum_cons]
              simp only [CWriter.mk.injEq] at hbc1 ⊢
              omega
            · simpa [forwardsImmediately, hq] using hfw1
          · simp at h
        · rw [if_neg hq, Option.map_eq_some'] at h
          obtain ⟨⟨r1, evs1, w1, e1, s1⟩, hrec, h⟩ := h
          simp only [Prod.mk.injEq] at h
          obtain ⟨h1, h2, h3, h4, h5⟩ := h
          subst h1 h2 h3 h4 h5
          obtain ⟨hp1, ht1, hbc1, hfw1, hnf1, hnc1⟩ :=
            ih _ _ _ _ _ _ _ _ _ _ hrec (min_le_right _ _)
          exact ⟨hp1, by simpa [sinkWrites] using ht1,
            by simpa [sinkWrites] using hbc1,
            forwards_cons_engine _ _ hfw1, by simp [hnf1], by simp [hnc1]⟩
      · rw [if_neg hp] at h
        simp only [Option.some.injEq, Prod.mk.injEq, Except.ok.injEq] at h
        obtain ⟨⟨hp', ht⟩, h2, h3, h4, h5⟩ := h
        subst h2 h3
        exact ⟨by omega, by simp [sinkWrites, ← ht], by simp [sinkWrites], rfl, by simp, by simp⟩

/-- C4: a completed `write(data)` on an open writer has pump-looped the
engine until the whole input was consumed, forwarded every produced
chunk to the sink immediately as it appeared (no other sink I/O), and
returns the input length when `write_return_read` is set, otherwise the
cumulative number of bytes written to the sink during the call (which is
also the amount added to the `tell()` counter). -/
theorem c4_write_pump (w : CWriter) (world : World) (dataLen r : Nat)
    (evs : List Event) (w' : CWriter) (world' : World)
    (hopen : w.closed = false)
    (h : ZstdCompressionWriter.write w world dataLen
        = some (Except.ok r, evs, w', world')) :
    r = (if w.write_return_read then dataLen else (sinkWrites evs).sum)
      ∧ w'.bytes_compressed = w.bytes_compressed + (sinkWrites evs).sum
      ∧ forwardsImmediately evs = true
      ∧ Event.sinkFlushCall ∉ evs ∧ Event.sinkCloseCall ∉ evs := by
  rw [ZstdCompressionWriter.write, if_neg (by simp [hopen]),
    Option.map_eq_some'] at h
  obtain ⟨⟨r1, evs1, w1, e1, s1⟩, hloop, h⟩ := h
  rcases r1 with e | ⟨pos, total⟩
  · simp at h
  · dsimp only at h
    simp only [Prod.mk.injEq] at h
    obtain ⟨h1, h2, h3, h4⟩ := h
    subst h2 h3
    obtain ⟨hp1, ht1, hbc1, hfw1, hnf1, hnc1⟩ :=
      writeLoop_ok _ _ _ _ _ _ _ _ _ _ _ _ _ hloop (Nat.zero_le _)
    refine ⟨?_, by simpa using hbc1, hfw1, hnf1, hnc1⟩
    subst hp1
    rcases hw : w.write_return_read with _ | _ <;> rw [hw] at h1 <;> simp at h1 ⊢ <;>
      omega

theorem c4_write_pump_witness :
    (3 : Nat) = (if (⟨4, false, true, false, false, false, 0⟩ : CWriter).write_return_read
        then 3
        else (sinkWrites [Event.engineCall 0, Event.sinkWrite 2, Event.engineCall 0,
          Event.sinkWrite 1]).sum)
      ∧ (⟨4, false, true, false, false, false, 3⟩ : CWriter).bytes_compressed
          = (⟨4, false, true, false, false, false, 0⟩ : CWriter).bytes_compressed
            + (sinkWrites [Event.engineCall 0, Event.sinkWrite 2, Event.engineCall 0,
                Event.sinkWrite 1]).sum
      ∧ forwardsImmediately [Event.engineCall 0, Event.sinkWrite 2, Event.engineCall 0,
          Event.sinkWrite 1] = true
      ∧ Event.sinkFlushCall ∉ [Event.engineCall 0, Event.sinkWrite 2, Event.engineCall 0,
          Event.sinkWrite 1]
      ∧ Event.sinkCloseCall ∉ [Event.engineCall 0, Event.sinkWrite 2, Event.engineCall 0,
          Event.sinkWrite 1] :=
  c4_write_pump ⟨4, false, true, false, false, false, 0⟩
    ⟨[ZResp.zok 2 2 1, ZResp.zok 1 1 0], [WResp.wok, WResp.wok], false, [], false, []⟩
    3 3 [Event.engineCall 0, Event.sinkWrite 2, Event.engineCall 0, Event.sinkWrite 1]
    ⟨4, false, true, false, false, false, 3⟩
    ⟨[], [], false, [], false, []⟩ rfl rfl

/-- C8: `close()` on the compression StreamWriter is idempotent: on a
writer already in the closed state, a further `close()` performs no
engine call and no sink I/O (the event trace is empty), leaves writer
and world unchanged, and returns successfully. -/
theorem c8_close_idempotent (w : CWriter) (world : World) (h : w.closed = true) :
    ZstdCompressionWriter.close w world = some (Except.ok (), [], w, world) := by
  simp [ZstdCompressionWriter.close, h]

theorem c8_close_idempotent_witness :
    (⟨4, true, true, false, false, true, 7⟩ : CWriter).closed = true ∧
      ZstdCompressionWriter.close ⟨4, true, true, false, false, true, 7⟩
          ⟨[ZResp.zok 0 0 0], [WResp.wok], true, [WResp.wok], true, [WResp.wok]⟩ =
        some (Except.ok (), [], ⟨4, true, true, false, false, true, 7⟩,
          ⟨[ZResp.zok 0 0 0], [WResp.wok], true, [WResp.wok], true, [WResp.wok]⟩) :=
  ⟨rfl, c8_close_idempotent _ _ rfl⟩

/-- C9: in every lifecycle state, each read-family operation (`read`,
`readall`, `readinto`, `readline`, `readlines`) as well as `seek` and
`truncate` fails immediately with `io.UnsupportedOperation`, performs no
engine call and no sink I/O, and leaves the writer state unchanged. -/
theorem c9_read_family_unsupported (w : CWriter) (world : World) (pos : Int) :
    ZstdCompressionWriter.read w world
        = (Except.error PyErr.unsupportedOperation, [], w, world)
    ∧ ZstdCompressionWriter.readall w world
        = (Except.error PyErr.unsupportedOperation, [], w, world)
    ∧ ZstdCompressionWriter.readinto w world
        = (Except.error PyErr.unsupportedOperation, [], w, world)
    ∧ ZstdCompressionWriter.readline w world
        = (Except.error PyErr.unsupportedOperation, [], w, world)
    ∧ ZstdCompressionWriter.readlines w world
        = (Except.error PyErr.unsupportedOperation, [], w, world)
    ∧ ZstdCompressionWriter.seek w world pos
        = (Except.error PyErr.unsupportedOperation, [], w, world)
    ∧ ZstdCompressionWriter.truncate w world
        = (Except.error PyErr.unsupportedOperation, [], w, world) :=
  ⟨rfl, rfl, rfl, rfl, rfl, rfl, rfl⟩

/-- C10: `flush` validates the flush mode before the closed-state check:
for every writer, including a closed one, a mode other than 0 (Block)
and 1 (FrameEnd) yields the invalid-flush-mode `ValueError` — not the
closed-stream error — with no engine call and no sink I/O. -/
theorem c10_flush_mode_before_closed (w : CWriter) (world : World) (m : Nat)
    (h : 2 ≤ m) :
    ZstdCompressionWriter.flush w world m =
      some (Except.error (PyErr.valueError ("unknown flush_mode: " ++ toString m)),
        [], w, world) := by
  obtain ⟨k, rfl⟩ := Nat.exists_eq_add_of_le' h
  rfl

theorem c10_flush_mode_before_closed_witness :
    2 ≤ 5 ∧
      ZstdCompressionWriter.flush ⟨4, true, true, false, false, true, 0⟩
          ⟨[ZResp.zok 0 0 0], [], true, [WResp.wok], true, [WResp.wok]⟩ 5 =
        some (Except.error (PyErr.valueError ("unknown flush_mode: " ++ toString 5)),
          [], ⟨4, true, true, false, false, true, 0⟩,
          ⟨[ZResp.zok 0 0 0], [], true, [WResp.wok], true, [WResp.wok]⟩) :=
  ⟨by decide, c10_flush_mode_before_closed _ _ 5 (by decide)⟩

/-- Helper: the flush drain loop only touches `bytes_compressed` (all
other writer fields are preserved) and emits only engine calls and sink
writes — never a sink `flush` or `close`. -/
theorem flushLoop_inv (cap directive : Nat) :
    ∀ (engine : List ZResp) (w : CWriter) (sinkW : List WResp) (total : Nat)
      (r : Except PyErr Nat) (evs : List Event) (w' : CWriter)
      (e' : List ZResp) (s' : List WResp),
      flushLoop cap directive w engine sinkW total = some (r, evs, w', e', s') →
      w'.closing = w.closing ∧ w'.closed = w.closed ∧ w'.closefd = w.closefd
        ∧ w'.write_size = w.write_size
        ∧ Event.sinkFlushCall ∉ evs ∧ Event.sinkCloseCall ∉ evs := by
  intro engine
  induction engine with
  | nil =>
    intro w sinkW total r evs w' e' s' h
    simp [flushLoop] at h
  | cons resp tail ih =>
    intro w sinkW total r evs w' e' s' h
    rcases resp with msg | ⟨c, p, zr⟩
    · simp only [flushLoop, Option.some.injEq, Prod.mk.injEq] at h
      obtain ⟨h1, h2, h3, h4, h5⟩ := h
      subst h2 h3
      simp
    · rcases sinkW with _ | ⟨sw, sinkW'⟩ <;> [skip; rcases sw with _ | m] <;>
        simp only [flushLoop] at h <;>
        by_cases hp : 0 < min p cap
      · rw [if_pos hp] at h
        simp at h
      · rw [if_neg hp] at h
        by_cases hz : zr = 0
        · rw [if_pos hz] at h
          simp only [Option.some.injEq, Prod.mk.injEq] at h
          obtain ⟨h1, h2, h3, h4, h5⟩ := h
          subst h2 h3
          simp
        · rw [if_neg hz, Option.map_eq_some'] at h
          obtain ⟨⟨r1, evs1, w1, e1, s1⟩, hrec, h⟩ := h
          simp only [Prod.mk.injEq] at h
          obtain ⟨h1, h2, h3, h4, h5⟩ := h
          subst h1 h2 h3 h4 h5
          have hih := ih _ _ _ _ _ _ _ _ hrec
          simp_all
      · rw [if_pos hp] at h
        by_cases hz : zr = 0
        · rw [if_pos hz] at h
          simp only [Option.some.injEq, Prod.mk.injEq] at h
          obtain ⟨h1, h2, h3, h4, h5⟩ := h
          subst h2 h3
          simp
        · rw [if_neg hz, Option.map_eq_some'] at h
          obtain ⟨⟨r1, evs1, w1, e1, s1⟩, hrec, h⟩ := h
          simp only [Prod.mk.injEq] at h
          obtain ⟨h1, h2, h3, h4, h5⟩ := h
          subst h1 h2 h3 h4 h5
          have hih := ih _ _ _ _ _ _ _ _ hrec
          simp_all
      · rw [if_neg hp] at h
        by_cases hz : zr = 0
        · rw [if_pos hz] at h
          simp only [Option.some.injEq, Prod.mk.injEq] at h
          obtain ⟨h1, h2, h3, h4, h5⟩ := h
          subst h2 h3
          simp
        · rw [if_neg hz, Option.map_eq_some'] at h
          obtain ⟨⟨r1, evs1, w1, e1, s1⟩, hrec, h⟩ := h
          simp only [Prod.mk.injEq] at h
          obtain ⟨h1, h2, h3, h4, h5⟩ := h
          subst h1 h2 h3 h4 h5
          have hih := ih _ _ _ _ _ _ _ _ hrec
          simp_all
      · rw [if_pos hp] at h
        simp only [Option.some.injEq, Prod.mk.injEq] at h
        obtain ⟨h1, h2, h3, h4, h5⟩ := h
        subst h2 h3
        simp
      · rw [if_neg hp] at h
        by_cases hz : zr = 0
        · rw [if_pos hz] at h
          simp only [Option.some.injEq, Prod.mk.injEq] at h
          obtain ⟨h1, h2, h3, h4, h5⟩ := h
          subst h2 h3
          simp
        · rw [if_neg hz, Option.map_eq_some'] at h
          obtain ⟨⟨r1, evs1, w1, e1, s1⟩, hrec, h⟩ := h
          simp only [Prod.mk.injEq] at h
          obtain ⟨h1, h2, h3, h4, h5⟩ := h
          subst h1 h2 h3 h4 h5
          have hih := ih _ _ _ _ _ _ _ _ hrec
          simp_all

/-- Helper: a completed `flush` call made while `closing` is set never
calls the sink's own `flush` or `close`, and preserves the writer's
lifecycle flags. -/
theorem flush_closing_inv (w : CWriter) (world : World) (res : Except PyErr Nat)
    (evs : List Event) (w1 : CWriter) (world1 : World)
    (hcl : w.closing = true)
    (h : ZstdCompressionWriter.flush w world 1 = some (res, evs, w1, world1)) :
    w1.closefd = w.closefd ∧ w1.closed = w.closed
      ∧ Event.sinkFlushCall ∉ evs ∧ Event.sinkCloseCall ∉ evs := by
  rw [show ZstdCompressionWriter.flush w world 1 = flushBody w world 2 from rfl,
    flushBody] at h
  by_cases hc : w.closed = true
  · rw [if_pos hc] at h
    simp only [Option.some.injEq, Prod.mk.injEq] at h
    obtain ⟨h1, h2, h3, h4⟩ := h
    subst h2 h3
    simp
  · rw [if_neg hc, Option.bind_eq_some] at h
    obtain ⟨⟨r1, evs1, w1', e1, s1⟩, hloop, h⟩ := h
    obtain ⟨hcg, hcd, hfd, hws, hnf, hnc⟩ := flushLoop_inv _ _ _ _ _ _ _ _ _ _ _ hloop
    rcases r1 with e1' | total
    · simp only [Option.some.injEq, Prod.mk.injEq] at h
      obtain ⟨h1, h2, h3, h4⟩ := h
      subst h2 h3
      exact ⟨hfd, hcd, hnf, hnc⟩
    · dsimp only at h
      rw [show w1'.closing = true from hcg.trans hcl] at h
      simp only [Bool.not_true, Bool.and_false, Bool.false_eq_true, if_false,
        Option.some.injEq, Prod.mk.injEq] at h
      obtain ⟨h1, h2, h3, h4⟩ := h
      subst h2 h3
      exact ⟨hfd, hcd, hnf, hnc⟩

/-- C1 (amended): for every non-closed compression StreamWriter, close()
performs a FrameEnd flush with the sink's own flush suppressed and marks
the writer closed even when that flush fails.  When the flush fails, the
flush error is surfaced immediately and the sink's close() is NOT
invoked.  When the flush succeeds, the sink's close() is invoked exactly
when the writer owns the sink's lifecycle (closefd) and the sink has a
close method, and any error it raises is surfaced. -/
theorem c1_close_amended (w : CWriter) (world : World) (hopen : w.closed = false) :
    (∀ e evs w1 world1,
      ZstdCompressionWriter.flush { w with closing := true } world 1
          = some (Except.error e, evs, w1, world1) →
      ZstdCompressionWriter.close w world
          = some (Except.error e, evs, { w1 with closing := false, closed := true },
              world1)
        ∧ Event.sinkFlushCall ∉ evs ∧ Event.sinkCloseCall ∉ evs)
    ∧ (∀ n evs w1 world1,
      ZstdCompressionWriter.flush { w with closing := true } world 1
          = some (Except.ok n, evs, w1, world1) →
      Event.sinkFlushCall ∉ evs
        ∧ ((world1.sinkHasClose && w.closefd) = false →
            ZstdCompressionWriter.close w world
              = some (Except.ok (), evs, { w1 with closing := false, closed := true },
                  world1))
        ∧ (∀ rest, (world1.sinkHasClose && w.closefd) = true →
            world1.sinkC = WResp.wok :: rest →
            ZstdCompressionWriter.close w world
              = some (Except.ok (), evs ++ [Event.sinkCloseCall],
                  { w1 with closing := false, closed := true },
                  { world1 with sinkC := rest }))
        ∧ (∀ m rest, (world1.sinkHasClose && w.closefd) = true →
            world1.sinkC = WResp.werr m :: rest →
            ZstdCompressionWriter.close w world
              = some (Except.error (PyErr.sinkError m), evs ++ [Event.sinkCloseCall],
                  { w1 with closing := false, closed := true },
                  { world1 with sinkC := rest }))) := by
  constructor
  · intro e evs w1 world1 hf
    obtain ⟨hfd, hcd, hnf, hnc⟩ := flush_closing_inv _ _ _ _ _ _ rfl hf
    refine ⟨?_, hnf, hnc⟩
    rw [ZstdCompressionWriter.close, if_neg (by simp [hopen]), hf, Option.some_bind]
  · intro n evs w1 world1 hf
    obtain ⟨hfd, hcd, hnf, hnc⟩ := flush_closing_inv _ _ _ _ _ _ rfl hf
    have hfd' : w1.closefd = w.closefd := hfd
    refine ⟨hnf, ?_, ?_, ?_⟩
    · intro hcond
      rw [ZstdCompressionWriter.close, if_neg (by simp [hopen]), hf, Option.some_bind]
      simp [hfd', hcond]
    · intro rest hcond hC
      rw [ZstdCompressionWriter.close, if_neg (by simp [hopen]), hf, Option.some_bind]
      simp [hfd', hcond, hC]
    · intro m rest hcond hC
      rw [ZstdCompressionWriter.close, if_neg (by simp [hopen]), hf, Option.some_bind]
      simp [hfd', hcond, hC]

theorem c1_close_amended_witness :
    ZstdCompressionWriter.close ⟨4, true, true, false, false, false, 0⟩
        ⟨[ZResp.zok 0 0 0], [], false, [], true, [WResp.wok]⟩ =
      some (Except.ok (), [Event.engineCall 2, Event.sinkCloseCall],
        ⟨4, true, true, false, false, true, 0⟩,
        ⟨[], [], false, [], true, []⟩) := by
  have h := ((c1_close_amended ⟨4, true, true, false, false, false, 0⟩
      ⟨[ZResp.zok 0 0 0], [], false, [], true, [WResp.wok]⟩ rfl).2
      0 [Event.engineCall 2] ⟨4, true, true, false, true, false, 0⟩
      ⟨[], [], false, [], true, [WResp.wok]⟩ rfl).2.2.1 [] rfl rfl
  simpa using h

/-- C1 (counterexample): a fresh writer with `closefd = true` over a sink
that has a `close` method; the finalizing flush fails with an engine
error.  `close()` surfaces the flush error and marks the writer closed,
but the sink's `close` is never invoked: the trace holds no
`sinkCloseCall` and the sink's close-response script is left untouched.
This refutes the claim that the sink is closed even on a failed flush. -/
theorem c1_close_counterexample :
    ZstdCompressionWriter.close ⟨4, true, true, false, false, false, 0⟩
        ⟨[ZResp.zerr "boom"], [], false, [], true, [WResp.wok]⟩ =
      some (Except.error (PyErr.zstdError "zstd compress error: boom"),
        [Event.engineCall 2],
        ⟨4, true, true, false, false, true, 0⟩,
        ⟨[], [], false, [], true, [WResp.wok]⟩)
    ∧ Event.sinkCloseCall ∉ [Event.engineCall 2] :=
  ⟨rfl, by decide⟩

end PyZstd
